import Mathlib

/-!
Verification of the cf-shortlink worker (src/worker.js) against its
natural-language specification.

The worker's request-handling core is shallowly embedded below:

* the Cloudflare KV namespace `LINKS` is an association list from string
  keys to string values (with the optional `expirationTtl` recorded on
  each entry); `get` returns the first binding, `put` prepends (overwrite);
* the Cache API used by the rate limiter is an association list keyed by
  the pair (bucket index, client ip) — the cache-key URL
  `https://ratelimit.local/short/BUCKET/ENCODEDIP` determines and is
  determined by that pair, `encodeURIComponent` being injective — storing
  the request count together with the `max-age` TTL it was written with;
* `crypto.getRandomValues` is modelled by an explicit byte stream
  (`List Nat`) threaded through the allocation loop, seven bytes per
  `genCode(7)` call;
* the platform primitives `crypto.subtle.digest("SHA-1", ...)` (via
  `sha1Hex`), `atob`/`TextDecoder` (via `b64decode`, `none` meaning the
  decoder throws) and the WHATWG `URL` parser (via `isHttpUrl`) are taken
  as function parameters;
* a KV `put` may fail: the oracle `putFail` says whether a given put
  throws.  The worker has no try/catch, so a failing put propagates as an
  uncaught exception; outcomes record this as a distinct `thrown` case
  carrying the store state at the point of the throw.

JavaScript string truthiness (`null` and `""` are falsy) is modelled
explicitly where the source tests a string with `if (x)` / `if (!x)`.
-/

namespace CfShortlink

/-- A value stored in the KV namespace: the string value and the
`expirationTtl` option it was put with (`none` for a plain put). -/
structure StoreVal where
  value : String
  expirationTtl : Option Int
deriving Repr, DecidableEq

/-- The `LINKS` KV namespace: newest binding first. -/
abbrev Store := List (String × StoreVal)

/-- Embeds `LINKS.get(k)`: first binding for `k`, or `null`. -/
def Store.get (s : Store) (k : String) : Option String :=
  (s.find? (fun e => e.1 == k)).map (fun e => e.2.value)

/-- Embeds a `LINKS.put` of key, value and optional expiration TTL: prepend (overwrite). -/
def Store.put (s : Store) (k v : String) (ttl : Option Int) : Store :=
  (k, ⟨v, ttl⟩) :: s

/-- Rate-limiter cache key: (bucket index, client ip). -/
abbrev RLKey := Nat × String

/-- The Cache API state used by `rateLimit`: key to (count, max-age TTL). -/
abbrev Cache := List (RLKey × (Nat × Nat))

/-- Embeds `cache.match(key)` followed by parsing the cached count. -/
def Cache.lookup (c : Cache) (k : RLKey) : Option (Nat × Nat) :=
  (c.find? (fun e => e.1 == k)).map (fun e => e.2)

/-- Embeds `cache.put(key, response)`: prepend (overwrite). -/
def Cache.put (c : Cache) (k : RLKey) (v : Nat × Nat) : Cache :=
  (k, v) :: c

/-- Environment variables consulted by the core.  Each numeric variable is
modelled after JavaScript `parseInt(env.X || "dflt", 10)`: `none` stands
for unset (or an unparsable string, which `parseInt` turns into `NaN`),
`some n` for a string parsing to the integer `n`. -/
structure Env where
  RL_WINDOW_SEC : Option Int
  RL_MAX_REQ : Option Int
  DEDUP_TTL_SEC : Option Int
deriving Repr, DecidableEq

/-- Embeds `Math.max(floor, parseInt(v || "dflt", 10) || dflt)`: the `|| dflt`
replaces both `NaN` (modelled by `none`) and `0` by the default. -/
def cfgInt (v : Option Int) (dflt floor : Int) : Nat :=
  (max floor (match v with
    | none => dflt
    | some n => if n = 0 then dflt else n)).toNat

/-- Embeds `Math.max(10, parseInt(env.RL_WINDOW_SEC || "60", 10) || 60)`. -/
def windowSecOf (env : Env) : Nat :=
  cfgInt env.RL_WINDOW_SEC 60 10

/-- Embeds `Math.max(1, parseInt(env.RL_MAX_REQ || "10", 10) || 10)`. -/
def maxReqOf (env : Env) : Nat :=
  cfgInt env.RL_MAX_REQ 10 1

/-- Embeds `parseInt(env.DEDUP_TTL_SEC || "0", 10) || 0`. -/
def dedupTtl (env : Env) : Int :=
  match env.DEDUP_TTL_SEC with
  | none => 0
  | some n => n

/-- JavaScript `s.trim()`: strip leading and trailing whitespace
(executable over the character list). -/
def jsTrim (s : String) : String :=
  ⟨((s.data.dropWhile Char.isWhitespace).reverse.dropWhile
      Char.isWhitespace).reverse⟩

/-- JavaScript truthiness of a string: `""` is falsy. -/
def truthyS (s : String) : Bool :=
  !s.isEmpty

/-- JavaScript truthiness of a nullable string: `null` and `""` are falsy. -/
def truthyO : Option String → Bool
  | none => false
  | some s => truthyS s

/-- The `genCode` alphabet
`"ABCDEFGHJKLMNPQRSTUVWXYZabcdefghijkmnopqrstuvwxyz23456789"`. -/
def chars : List Char :=
  "ABCDEFGHJKLMNPQRSTUVWXYZabcdefghijkmnopqrstuvwxyz23456789".data

/-- Embeds `genCode(len)`: `out += chars[bytes[i] % chars.length]` for
`i = 0 .. len-1`, where `bytes` are the `len` random bytes produced by
`crypto.getRandomValues` (a `Uint8Array(len)` is fully populated, so the
`getD` default is never consulted for the streams the worker feeds in). -/
def genCode (bytes : List Nat) (len : Nat) : String :=
  String.mk ((List.range len).map
    (fun i => chars.getD ((bytes.getD i 0) % chars.length) 'A'))

/-- The rate limiter's verdict. -/
structure RLResult where
  ok : Bool
  remaining : Int
  resetIn : Nat
deriving Repr, DecidableEq

/-- The count read back from the cache: `parseInt(await cached.text(),
10) || 0` on a hit, `0` when absent. -/
def countAt (cache : Cache) (k : RLKey) : Nat :=
  match cache.lookup k with
  | some e => e.1
  | none => 0

/-- Embeds `rateLimit(req, env)` (src/worker.js lines 169-206), for client ip
`ip` at unix time `now`: fixed-window counter in the shared cache.
Returns the verdict and the updated cache. -/
def rateLimit (env : Env) (ip : String) (now : Nat) (cache : Cache) :
    RLResult × Cache :=
  let windowSec := windowSecOf env
  let maxReq := maxReqOf env
  let bucket := now / windowSec
  let count := countAt cache (bucket, ip)
  let resetIn := (bucket + 1) * windowSec - now
  if count ≥ maxReq then
    ({ ok := false, remaining := 0, resetIn := resetIn }, cache)
  else
    let count' := count + 1
    let ttl := max 1 resetIn
    ({ ok := true, remaining := (maxReq : Int) - (count' : Int), resetIn := resetIn },
      cache.put (bucket, ip) (count', ttl))

section Dedup

variable (sha1Hex : String → String)
variable (putFail : String → String → Bool)

/-- Embeds `getDedupCode(LINKS, env, longUrl)` (lines 223-228): `null` without
touching the store when the TTL is `≤ 0`; otherwise read `D:<sha1 hex>`.
The second component lists the KV keys read (to state frame properties). -/
def getDedupCode (store : Store) (env : Env) (longUrl : String) :
    Option String × List String :=
  if dedupTtl env ≤ 0 then (none, [])
  else
    let h := sha1Hex longUrl
    (store.get ("D:" ++ h), ["D:" ++ h])

/-- Embeds `putDedupCode(LINKS, env, longUrl, code)` (lines 230-235): returns
without writing when the TTL is `≤ 0`; otherwise puts `D:<sha1 hex> ↦
code` with the TTL.  A failing put throws (`Except.error`). -/
def putDedupCode (store : Store) (env : Env) (longUrl code : String) :
    Except Unit Store :=
  if dedupTtl env ≤ 0 then .ok store
  else
    let h := sha1Hex longUrl
    if putFail ("D:" ++ h) code then .error ()
    else .ok (store.put ("D:" ++ h) code (some (dedupTtl env)))

/-- The value of `code` after lines 303-308, collapsed to `none` whenever
the subsequent `if (!code)` would fire: `null` from `getDedupCode`, an
empty-string dedup value (falsy, so the existence check is skipped and
`if (!code)` fires), or a dangling entry whose target link's `get` is
falsy (in which case `code = null` is assigned). -/
def dedupLiveCode (store : Store) (env : Env) (longUrl : String) :
    Option String :=
  match (getDedupCode sha1Hex store env longUrl).1 with
  | none => none
  | some c =>
    if c.isEmpty then none
    else if truthyO (store.get c) then some c
    else none

/-- The allocation loop of lines 312-319: up to `n` tries, each drawing
seven bytes from the random stream; the first candidate whose `get` is
falsy is selected. -/
def allocLoop (store : Store) (stream : List Nat) : Nat → Option String
  | 0 => none
  | Nat.succ n =>
    let c := genCode (stream.take 7) 7
    if truthyO (store.get c) then allocLoop store (stream.drop 7) n
    else some c

/-- Outcome of the allocation phase (lines 302-329). -/
inductive AllocOutcome where
  /-- HTTP 200 path: the short code and the resulting store. -/
  | ok (code : String) (store : Store)
  /-- All 6 candidates collided: HTTP 500 `"Failed to allocate code"`. -/
  | exhausted (store : Store)
  /-- A KV put threw; no catch exists, so the exception escapes `handle`.
  The store state at the throw is recorded. -/
  | thrown (store : Store)
deriving Repr, DecidableEq

/-- Lines 302-329 of `handle`: dedup lookup with dangling-entry check,
else the bounded generation loop, then `LINKS.put(code, longUrl)` and the
best-effort-intended (but uncaught) `putDedupCode`. -/
def allocate (env : Env) (store : Store) (longUrl : String)
    (stream : List Nat) : AllocOutcome :=
  match dedupLiveCode sha1Hex store env longUrl with
  | some c => .ok c store
  | none =>
    match allocLoop store stream 6 with
    | none => .exhausted store
    | some c =>
      if putFail c longUrl then .thrown store
      else
        let store' := store.put c longUrl none
        match putDedupCode sha1Hex putFail store' env longUrl c with
        | .error _ => .thrown store'
        | .ok store'' => .ok c store''

end Dedup

/-- The JSON response relevant to the claims: HTTP status, the allocated
code (on 200), and the `x-rl-remaining` / `x-rl-reset-in` headers when
the handler attaches them. -/
structure Resp where
  status : Nat
  code : Option String
  rlHeaders : Option (Int × Nat)
deriving Repr, DecidableEq

/-- Result of a `POST /short` request: the response (or an uncaught
exception, `Except.error`), plus the final KV store and rate-limit cache. -/
structure HResult where
  outcome : Except Unit Resp
  store : Store
  cache : Cache
deriving Repr

section Handler

variable (sha1Hex : String → String)
variable (putFail : String → String → Bool)
variable (b64decode : String → Option String)
variable (isHttpUrl : String → Bool)

/-- The `POST /short` branch of `handle` (lines 255-341), assuming the
required `LINKS` binding is configured.  `form` is the parsed body:
`none` when `req.formData()` throws, `some none` when the `longUrl`
field is absent (or not a string), `some (some b64)` otherwise.  Note the
rate limiter runs — and persists its increment — before any input
validation. -/
def handlePost (env : Env) (now : Nat) (ip : String)
    (form : Option (Option String)) (stream : List Nat)
    (store : Store) (cache : Cache) : HResult :=
  let rl := (rateLimit env ip now cache).1
  let body : Except Unit Resp × Store :=
    if rl.ok = false then
      (.ok ⟨429, none, some (rl.remaining, rl.resetIn)⟩, store)
    else
      match form with
      | none => (.ok ⟨400, none, none⟩, store)
      | some none => (.ok ⟨400, none, none⟩, store)
      | some (some longUrlB64) =>
        if (jsTrim longUrlB64).isEmpty then (.ok ⟨400, none, none⟩, store)
        else if longUrlB64.length > 8192 then (.ok ⟨413, none, none⟩, store)
        else
          match b64decode longUrlB64 with
          | none => (.ok ⟨400, none, none⟩, store)
          | some longUrl =>
            if longUrl.length > 8192 then (.ok ⟨413, none, none⟩, store)
            else if isHttpUrl longUrl = false then
              (.ok ⟨400, none, none⟩, store)
            else
              match allocate sha1Hex putFail env store longUrl stream with
              | .ok c store' =>
                (.ok ⟨200, some c, some (rl.remaining, rl.resetIn)⟩, store')
              | .exhausted store' => (.ok ⟨500, none, none⟩, store')
              | .thrown store' => (.error (), store')
  ⟨body.1, body.2, (rateLimit env ip now cache).2⟩

/-- The input-validation checks of lines 271-300, as a predicate: does
the request body fail validation (yielding 400 or 413)? -/
def validationFails (form : Option (Option String)) : Bool :=
  match form with
  | none => true
  | some none => true
  | some (some b64) =>
    (jsTrim b64).isEmpty || b64.length > 8192 ||
      (match b64decode b64 with
       | none => true
       | some u => u.length > 8192 || !isHttpUrl u)

end Handler

/-- A character of the redirect-path pattern `[A-Za-z0-9_-]`. -/
def isCodeChar (c : Char) : Bool :=
  ('A' ≤ c && c ≤ 'Z') || ('a' ≤ c && c ≤ 'z') ||
    ('0' ≤ c && c ≤ '9') || c == '_' || c == '-'

/-- Embeds the path match against the pattern of one segment of 3 to 64 characters from `[A-Za-z0-9_-]` (line 351): the captured
code, if the path matches. -/
def matchCode (path : String) : Option String :=
  match path.data with
  | '/' :: rest =>
    if 3 ≤ rest.length ∧ rest.length ≤ 64 ∧ rest.all isCodeChar = true then
      some (String.mk rest)
    else none
  | _ => none

/-- Outcome of the resolution branch. -/
inductive ResolveResult where
  /-- HTTP 302 with `Location: url`. -/
  | redirect (url : String)
  /-- HTTP 404 plain text `Not Found`. -/
  | notFound
deriving Repr, DecidableEq

/-- The GET/HEAD redirect branch of `handle` (lines 351-362): match the
path shape, then `LINKS.get(code)`; a falsy result (null or `""`) is 404.
The second component lists the KV keys read (to state frame properties). -/
def resolver (store : Store) (path : String) : ResolveResult × List String :=
  match matchCode path with
  | some code =>
    match store.get code with
    | some longUrl =>
      if longUrl.isEmpty then (.notFound, [code])
      else (.redirect longUrl, [code])
    | none => (.notFound, [code])
  | none => (.notFound, [])

/-! ### Basic lemmas about the embedded definitions -/

theorem chars_length : chars.length = 57 := rfl

theorem getD_chars_mem (k : Nat) : chars.getD (k % chars.length) 'A' ∈ chars := by
  have h : k % chars.length < chars.length := Nat.mod_lt _ (by decide)
  rw [List.getD_eq_getElem?_getD, List.getElem?_eq_getElem h, Option.getD_some]
  exact List.getElem_mem h

theorem genCode_length (bytes : List Nat) (len : Nat) :
    (genCode bytes len).length = len := by
  show (List.map _ (List.range len)).length = len
  simp

theorem genCode_all_chars (bytes : List Nat) (len : Nat) :
    ((genCode bytes len).data.all (fun c => chars.contains c)) = true := by
  show (List.map _ (List.range len)).all _ = true
  simp only [List.all_eq_true, List.mem_map]
  rintro c ⟨i, -, rfl⟩
  simpa [List.elem_iff] using getD_chars_mem (bytes.getD i 0)

theorem Store.get_put_self (s : Store) (k v : String) (ttl : Option Int) :
    (s.put k v ttl).get k = some v := by
  simp [Store.get, Store.put, List.find?_cons_of_pos]

theorem Store.get_put_ne (s : Store) (k v : String) (ttl : Option Int)
    (k' : String) (h : k' ≠ k) : (s.put k v ttl).get k' = s.get k' := by
  have hb : (k == k') = false := by simpa using (Ne.symm h)
  simp [Store.get, Store.put, List.find?_cons_of_neg, hb]

theorem Cache.lookup_put_self (c : Cache) (k : RLKey) (v : Nat × Nat) :
    (c.put k v).lookup k = some v := by
  simp [Cache.lookup, Cache.put, List.find?_cons_of_pos]

theorem Cache.lookup_put_ne (c : Cache) (k : RLKey) (v : Nat × Nat)
    (k' : RLKey) (h : k' ≠ k) : (c.put k v).lookup k' = c.lookup k' := by
  have hb : (k == k') = false := by simpa using (Ne.symm h)
  simp [Cache.lookup, Cache.put, List.find?_cons_of_neg, hb]

/-- The 62 case-sensitive ASCII letters and digits. -/
def asciiAlnum : List Char :=
  ((List.range 26).map (fun i => Char.ofNat (65 + i))) ++
    ((List.range 26).map (fun i => Char.ofNat (97 + i))) ++
    ((List.range 10).map (fun i => Char.ofNat (48 + i)))

/-- The visually ambiguous characters the generator excludes. -/
def ambiguousChars : List Char := ['0', 'O', '1', 'l', 'I']

theorem matchCode_slash (token : String) :
    matchCode ("/" ++ token) =
      if 3 ≤ token.length ∧ token.length ≤ 64 ∧ token.data.all isCodeChar = true
      then some token else none := by
  cases token with
  | mk l => rfl

/-! ### Claim C2 -/

/-- C2 counterexample: the generator's alphabet
`"ABCDEFGHJKLMNPQRSTUVWXYZabcdefghijkmnopqrstuvwxyz23456789"` has 57
symbols, not the 58 the claim states (62 letters and digits minus the
five ambiguous characters `0 O 1 l I` leaves 57). -/
theorem claim_C2_counterexample : chars.length = 57 ∧ ¬(chars.length = 58) := by
  decide

/-- C2 (amended): the Code Generator's alphabet contains exactly 57
symbols — the case-sensitive letters and digits minus the visually
ambiguous characters `0 O 1 l I` — and for every length `n`,
`genCode` returns a string of exactly `n` characters, each drawn from
that alphabet. -/
theorem claim_C2_alphabet_and_genCode :
    chars = asciiAlnum.filter (fun c => !ambiguousChars.contains c) ∧
    chars.length = 57 ∧
    ∀ (bytes : List Nat) (n : Nat),
      (genCode bytes n).length = n ∧
      ((genCode bytes n).data.all (fun c => chars.contains c)) = true := by
  refine ⟨by decide, rfl, fun bytes n => ⟨genCode_length bytes n, genCode_all_chars bytes n⟩⟩

/-! ### Claim C9 -/

/-- C9: with deduplication disabled (configured TTL ≤ 0, the default),
`getDedupCode` returns `null` reading no KV key, and `putDedupCode`
returns without writing, leaving the store unchanged (it does not even
consult the put-failure oracle, i.e. no put is attempted). -/
theorem claim_C9_dedup_disabled_noop (sha1Hex : String → String)
    (putFail : String → String → Bool) (env : Env) (store : Store)
    (longUrl code : String) (h : dedupTtl env ≤ 0) :
    getDedupCode sha1Hex store env longUrl = (none, []) ∧
    putDedupCode sha1Hex putFail store env longUrl code = .ok store := by
  constructor
  · simp [getDedupCode, h]
  · simp [putDedupCode, h]

/-- C9 witness: the default environment (no `DEDUP_TTL_SEC`) disables
deduplication, and both operations are no-ops even when every attempted
put would fail. -/
theorem claim_C9_witness :
    dedupTtl ⟨none, none, none⟩ ≤ 0 ∧
    getDedupCode id [] ⟨none, none, none⟩ "http://e" = (none, []) ∧
    putDedupCode id (fun _ _ => true) [] ⟨none, none, none⟩ "http://e" "AAAAAAA"
      = .ok [] := by
  refine ⟨by decide, ?_⟩
  exact claim_C9_dedup_disabled_noop id (fun _ _ => true) ⟨none, none, none⟩ []
    "http://e" "AAAAAAA" (by decide)

/-! ### Claim C6 -/

/-- C6: a token failing shape validation — length outside 3..64 or a
character outside `[A-Za-z0-9_-]` — makes the redirect branch answer
404 with an empty list of KV keys read (no store access). -/
theorem claim_C6_malformed_token_no_store_access (store : Store) (token : String)
    (h : token.length < 3 ∨ 64 < token.length ∨ token.data.all isCodeChar = false) :
    resolver store ("/" ++ token) = (.notFound, []) := by
  have hm : matchCode ("/" ++ token) = none := by
    rw [matchCode_slash, if_neg]
    rintro ⟨h1, h2, h3⟩
    rcases h with h | h | h
    · omega
    · omega
    · rw [h3] at h
      exact Bool.noConfusion h
  simp [resolver, hm]

/-- C6 witness: the two-character token `"ab"` is malformed and resolves
to 404 without any store read, on a store that does contain `"ab"`. -/
theorem claim_C6_witness :
    ("ab".length < 3 ∨ 64 < "ab".length ∨ "ab".data.all isCodeChar = false) ∧
    resolver [("ab", ⟨"http://e", none⟩)] ("/" ++ "ab") = (.notFound, []) := by
  refine ⟨Or.inl (by decide), ?_⟩
  exact claim_C6_malformed_token_no_store_access [("ab", ⟨"http://e", none⟩)] "ab"
    (Or.inl (by decide))

/-! ### Lemmas about the allocation loop -/

theorem allocLoop_some (store : Store) (stream : List Nat) (n : Nat) (c : String)
    (h : allocLoop store stream n = some c) :
    c.length = 7 ∧ (c.data.all (fun x => chars.contains x)) = true ∧
      truthyO (store.get c) = false := by
  induction n generalizing stream with
  | zero => exact Option.noConfusion h
  | succ n ih =>
    rw [allocLoop] at h
    cases hc : truthyO (store.get (genCode (stream.take 7) 7)) with
    | true =>
      rw [hc] at h
      simp only [if_true] at h
      exact ih _ h
    | false =>
      rw [hc] at h
      simp only [Bool.false_eq_true, if_false, Option.some.injEq] at h
      subst h
      exact ⟨genCode_length _ _, genCode_all_chars _ _, hc⟩

theorem allocLoop_none (store : Store) (stream : List Nat) (n : Nat)
    (h : ∀ i < n, truthyO (store.get (genCode ((stream.drop (7 * i)).take 7) 7)) = true) :
    allocLoop store stream n = none := by
  induction n generalizing stream with
  | zero => rfl
  | succ n ih =>
    rw [allocLoop]
    have h0 := h 0 (Nat.succ_pos n)
    simp only [Nat.mul_zero, List.drop_zero] at h0
    rw [h0]
    simp only [if_true]
    refine ih _ (fun i hi => ?_)
    have := h (i + 1) (Nat.succ_lt_succ hi)
    rw [List.drop_drop]
    have harith : 7 + 7 * i = 7 * (i + 1) := by ring
    rw [harith]
    exact this

theorem allocate_ok_dedup_disabled (sha1Hex : String → String)
    (putFail : String → String → Bool) (env : Env) (store : Store)
    (longUrl : String) (stream : List Nat) (c : String) (s' : Store)
    (hd : dedupTtl env ≤ 0)
    (h : allocate sha1Hex putFail env store longUrl stream = .ok c s') :
    allocLoop store stream 6 = some c ∧ s' = store.put c longUrl none := by
  have hdl : dedupLiveCode sha1Hex store env longUrl = none := by
    simp [dedupLiveCode, getDedupCode, hd]
  rw [allocate, hdl] at h
  cases hl : allocLoop store stream 6 with
  | none => simp [hl] at h
  | some c0 =>
    simp only [hl] at h
    cases hp : putFail c0 longUrl with
    | true => simp [hp] at h
    | false =>
      have hpd : putDedupCode sha1Hex putFail (store.put c0 longUrl none) env longUrl c0
          = .ok (store.put c0 longUrl none) := by
        simp [putDedupCode, hd]
      simp only [hp, Bool.false_eq_true, if_false, hpd] at h
      rw [AllocOutcome.ok.injEq] at h
      obtain ⟨rfl, hs⟩ := h
      exact ⟨rfl, hs.symm⟩

/-! ### Claim C1 -/

/-- C1: under the default posture (deduplication disabled), a successful
allocation for a valid nonempty http/https URL of at most 8192 characters
yields a 7-character token over the generator's alphabet, and the
redirect branch on the resulting store resolves that token back to
exactly the original URL (reading only that key). -/
theorem claim_C1_round_trip (sha1Hex : String → String)
    (putFail : String → String → Bool) (isHttpUrl : String → Bool)
    (env : Env) (store : Store) (longUrl : String) (stream : List Nat)
    (c : String) (s' : Store)
    (hdedup : dedupTtl env ≤ 0)
    (hvalid : isHttpUrl longUrl = true)
    (hne : longUrl ≠ "")
    (hlen : longUrl.length ≤ 8192)
    (h : allocate sha1Hex putFail env store longUrl stream = .ok c s') :
    c.length = 7 ∧ (c.data.all (fun x => chars.contains x)) = true ∧
      resolver s' ("/" ++ c) = (.redirect longUrl, [c]) := by
  obtain ⟨hl, rfl⟩ := allocate_ok_dedup_disabled sha1Hex putFail env store
    longUrl stream c s' hdedup h
  obtain ⟨hlen7, hall, -⟩ := allocLoop_some store stream 6 c hl
  refine ⟨hlen7, hall, ?_⟩
  have hsub : ∀ x ∈ chars, isCodeChar x = true := by decide
  have hcc : c.data.all isCodeChar = true := by
    simp only [List.all_eq_true] at hall ⊢
    intro x hx
    exact hsub x (by simpa [List.elem_iff] using hall x hx)
  have hcode : matchCode ("/" ++ c) = some c := by
    rw [matchCode_slash, if_pos]
    exact ⟨by omega, by omega, hcc⟩
  have hie : longUrl.isEmpty = false := by
    cases hh : longUrl.isEmpty with
    | false => rfl
    | true => exact absurd ((String.isEmpty_iff longUrl).mp hh) hne
  simp [resolver, hcode, Store.get_put_self, hie]

/-- C1 witness: allocating `"http://e"` on an empty store with the
all-zero random stream yields `"AAAAAAA"`, which resolves back to
`"http://e"`. -/
theorem claim_C1_witness :
    dedupTtl ⟨none, none, none⟩ ≤ 0 ∧
    allocate id (fun _ _ => false) ⟨none, none, none⟩ [] "http://e" [] =
      .ok "AAAAAAA" [("AAAAAAA", ⟨"http://e", none⟩)] ∧
    "AAAAAAA".length = 7 ∧
    ("AAAAAAA".data.all (fun x => chars.contains x)) = true ∧
    resolver [("AAAAAAA", ⟨"http://e", none⟩)] ("/" ++ "AAAAAAA") =
      (.redirect "http://e", ["AAAAAAA"]) := by
  refine ⟨by decide, by decide, ?_⟩
  exact claim_C1_round_trip id (fun _ _ => false) (fun s => s == "http://e")
    ⟨none, none, none⟩ [] "http://e" [] "AAAAAAA" [("AAAAAAA", ⟨"http://e", none⟩)]
    (by decide) (by decide) (by decide) (by decide) (by decide)

/-! ### Claim C4 -/

/-- C4: when the deduplication lookup yields nothing and every one of the
6 generated candidate tokens is already present (truthy) in the KV store,
allocation fails with the `AllocationExhausted` outcome — surfaced by the
handler as HTTP 500 `"Failed to allocate code"` — and the store is
returned unchanged: no write is performed. -/
theorem claim_C4_exhaustion_no_write (sha1Hex : String → String)
    (putFail : String → String → Bool) (env : Env) (store : Store)
    (longUrl : String) (stream : List Nat)
    (hdl : dedupLiveCode sha1Hex store env longUrl = none)
    (hcol : ∀ i < 6,
      truthyO (store.get (genCode ((stream.drop (7 * i)).take 7) 7)) = true) :
    allocate sha1Hex putFail env store longUrl stream = .exhausted store := by
  have hl := allocLoop_none store stream 6 hcol
  rw [allocate, hdl, hl]

/-- C4 witness: with the all-zero stream every candidate is `"AAAAAAA"`,
and a store containing `"AAAAAAA"` makes all 6 tries collide. -/
theorem claim_C4_witness :
    dedupLiveCode id [("AAAAAAA", ⟨"http://x", none⟩)] ⟨none, none, none⟩
      "http://e" = none ∧
    (∀ i < 6, truthyO (Store.get [("AAAAAAA", ⟨"http://x", none⟩)]
      (genCode ((([] : List Nat).drop (7 * i)).take 7) 7)) = true) ∧
    allocate id (fun _ _ => false) ⟨none, none, none⟩
      [("AAAAAAA", ⟨"http://x", none⟩)] "http://e" [] =
      .exhausted [("AAAAAAA", ⟨"http://x", none⟩)] := by
  refine ⟨by decide, by decide, ?_⟩
  exact claim_C4_exhaustion_no_write id (fun _ _ => false) ⟨none, none, none⟩
    [("AAAAAAA", ⟨"http://x", none⟩)] "http://e" [] (by decide) (by decide)

/-! ### Helpers for the deduplication claims -/

theorem isEmpty_false_of_ne (s : String) (h : s ≠ "") : s.isEmpty = false := by
  cases hh : s.isEmpty with
  | false => rfl
  | true => exact absurd ((String.isEmpty_iff s).mp hh) h

theorem truthyO_some_of_ne (s : String) (h : s ≠ "") :
    truthyO (some s) = true := by
  simp [truthyO, truthyS, isEmpty_false_of_ne s h]

theorem ne_empty_of_length_seven (s : String) (h : s.length = 7) : s ≠ "" := by
  intro hh
  rw [hh] at h
  exact absurd h (by decide)

theorem dkey_ne_code (h c : String)
    (hall : (c.data.all (fun x => chars.contains x)) = true) :
    ¬("D:" ++ h = c) := by
  intro he
  have hdata : ("D:" ++ h).data = c.data := congrArg String.data he
  have hD : ("D:" ++ h).data = 'D' :: ':' :: h.data := by
    cases h with | mk l => rfl
  rw [hD] at hdata
  have hcolon : ':' ∈ c.data := by
    rw [← hdata]
    exact List.mem_cons_of_mem _ (List.mem_cons_self _ _)
  have hmem := (List.all_eq_true.mp hall) ':' hcolon
  have hc : (':' : Char) ∈ chars := by simpa [List.elem_iff] using hmem
  exact absurd hc (by decide)

theorem allocate_ok_cases (sha1Hex : String → String)
    (putFail : String → String → Bool) (env : Env) (store : Store)
    (longUrl : String) (stream : List Nat) (c : String) (s' : Store)
    (h : allocate sha1Hex putFail env store longUrl stream = .ok c s') :
    (dedupLiveCode sha1Hex store env longUrl = some c ∧ s' = store) ∨
    (dedupLiveCode sha1Hex store env longUrl = none ∧
      allocLoop store stream 6 = some c ∧ putFail c longUrl = false ∧
      putDedupCode sha1Hex putFail (store.put c longUrl none) env longUrl c
        = .ok s') := by
  rw [allocate] at h
  cases hdl : dedupLiveCode sha1Hex store env longUrl with
  | some c1 =>
    simp only [hdl, AllocOutcome.ok.injEq] at h
    obtain ⟨rfl, rfl⟩ := h
    exact Or.inl ⟨rfl, rfl⟩
  | none =>
    simp only [hdl] at h
    cases hl : allocLoop store stream 6 with
    | none => simp [hl] at h
    | some c0 =>
      simp only [hl] at h
      cases hp : putFail c0 longUrl with
      | true => simp [hp] at h
      | false =>
        simp only [hp, Bool.false_eq_true, if_false] at h
        cases hq : putDedupCode sha1Hex putFail (store.put c0 longUrl none) env
            longUrl c0 with
        | error e => simp [hq] at h
        | ok s2 =>
          simp only [hq, AllocOutcome.ok.injEq] at h
          obtain ⟨rfl, rfl⟩ := h
          exact Or.inr ⟨rfl, rfl, hp, hq⟩

/-! ### Claim C7 -/

/-- C7: with deduplication enabled (TTL > 0) and no storage failures,
if an allocation for a nonempty URL succeeded with token `c` and store
`s1`, a second allocation for the identical URL returns the same token
`c` and leaves the store exactly `s1`: the Link put is invoked at most
once across the two calls (the second call performs no put at all). -/
theorem claim_C7_dedup_same_token (sha1Hex : String → String) (env : Env)
    (s0 : Store) (longUrl : String) (stream1 stream2 : List Nat)
    (c : String) (s1 : Store)
    (htt : 0 < dedupTtl env)
    (hne : longUrl ≠ "")
    (h1 : allocate sha1Hex (fun _ _ => false) env s0 longUrl stream1 = .ok c s1) :
    allocate sha1Hex (fun _ _ => false) env s1 longUrl stream2 = .ok c s1 := by
  have httl : ¬(dedupTtl env ≤ 0) := by omega
  rcases allocate_ok_cases _ _ _ _ _ _ _ _ h1 with ⟨hd, rfl⟩ | ⟨-, hloop, -, hput⟩
  · rw [allocate, hd]
  · rw [putDedupCode, if_neg httl] at hput
    simp only [Bool.false_eq_true, if_false, Except.ok.injEq] at hput
    obtain ⟨hlen7, hall, -⟩ := allocLoop_some _ _ _ _ hloop
    have hdk := dkey_ne_code (sha1Hex longUrl) c hall
    have hget_d : s1.get ("D:" ++ sha1Hex longUrl) = some c := by
      rw [← hput]
      exact Store.get_put_self _ _ _ _
    have hget_c : s1.get c = some longUrl := by
      rw [← hput, Store.get_put_ne _ _ _ _ _ (fun hh => hdk hh.symm)]
      exact Store.get_put_self _ _ _ _
    have hcie : c.isEmpty = false :=
      isEmpty_false_of_ne c (ne_empty_of_length_seven c hlen7)
    have hg : (getDedupCode sha1Hex s1 env longUrl).1 = some c := by
      rw [getDedupCode, if_neg httl]
      exact hget_d
    have hdl2 : dedupLiveCode sha1Hex s1 env longUrl = some c := by
      rw [dedupLiveCode, hg]
      simp [hcie, hget_c, truthyO_some_of_ne longUrl hne]
    rw [allocate, hdl2]

/-- C7 witness: first allocation of `"http://e"` on an empty store with
the all-zero stream yields `"AAAAAAA"`; a second allocation with a
different stream returns the same token and the same store. -/
theorem claim_C7_witness :
    0 < dedupTtl ⟨none, none, some 300⟩ ∧
    allocate id (fun _ _ => false) ⟨none, none, some 300⟩ [] "http://e" [] =
      .ok "AAAAAAA" [("D:http://e", ⟨"AAAAAAA", some 300⟩),
        ("AAAAAAA", ⟨"http://e", none⟩)] ∧
    allocate id (fun _ _ => false) ⟨none, none, some 300⟩
      [("D:http://e", ⟨"AAAAAAA", some 300⟩), ("AAAAAAA", ⟨"http://e", none⟩)]
      "http://e" [1, 1, 1, 1, 1, 1, 1] =
      .ok "AAAAAAA" [("D:http://e", ⟨"AAAAAAA", some 300⟩),
        ("AAAAAAA", ⟨"http://e", none⟩)] := by
  refine ⟨by decide, by decide, ?_⟩
  exact claim_C7_dedup_same_token id ⟨none, none, some 300⟩ [] "http://e" []
    [1, 1, 1, 1, 1, 1, 1] "AAAAAAA"
    [("D:http://e", ⟨"AAAAAAA", some 300⟩), ("AAAAAAA", ⟨"http://e", none⟩)]
    (by decide) (by decide) (by decide)

/-! ### Claim C8 -/

/-- C8 counterexample to "allocates a new *distinct* token": with the
stale DedupEntry `D:http://e ↦ "AAAAAAA"` and the link `"AAAAAAA"` absent,
a random stream that regenerates `"AAAAAAA"` makes the subsequent
allocation return exactly the stale token — not a distinct one (the entry
is bypassed, but nothing forces the generator away from the stale value). -/
theorem claim_C8_counterexample :
    Store.get [("D:http://e", ⟨"AAAAAAA", some 300⟩)] "D:http://e"
      = some "AAAAAAA" ∧
    truthyO (Store.get [("D:http://e", ⟨"AAAAAAA", some 300⟩)] "AAAAAAA")
      = false ∧
    allocate id (fun _ _ => false) ⟨none, none, some 300⟩
      [("D:http://e", ⟨"AAAAAAA", some 300⟩)] "http://e" [] =
      .ok "AAAAAAA" [("D:http://e", ⟨"AAAAAAA", some 300⟩),
        ("AAAAAAA", ⟨"http://e", none⟩),
        ("D:http://e", ⟨"AAAAAAA", some 300⟩)] := by
  decide

/-- C8 (amended): with deduplication enabled, a DedupEntry pointing to a
token whose Link is absent is treated as absent: allocation proceeds via
the fresh generation loop (its token was free in the store at selection
time — distinct from the stale token except when the generator happens to
regenerate it), and the stale DedupEntry is never deleted — the key is
still present afterwards, overwritten by the record step to the new
token. -/
theorem claim_C8_stale_entry_bypass (sha1Hex : String → String) (env : Env)
    (s : Store) (longUrl : String) (stream : List Nat)
    (c cStale : String) (sF : Store)
    (htt : 0 < dedupTtl env)
    (hstale : s.get ("D:" ++ sha1Hex longUrl) = some cStale)
    (hdangling : truthyO (s.get cStale) = false)
    (hres : allocate sha1Hex (fun _ _ => false) env s longUrl stream = .ok c sF) :
    allocLoop s stream 6 = some c ∧
    truthyO (s.get c) = false ∧
    sF.get ("D:" ++ sha1Hex longUrl) = some c := by
  have httl : ¬(dedupTtl env ≤ 0) := by omega
  have hdl : dedupLiveCode sha1Hex s env longUrl = none := by
    have hg : (getDedupCode sha1Hex s env longUrl).1 = some cStale := by
      rw [getDedupCode, if_neg httl]
      exact hstale
    rw [dedupLiveCode, hg]
    cases hce : cStale.isEmpty with
    | true => simp [hce]
    | false => simp [hce, hdangling]
  rcases allocate_ok_cases _ _ _ _ _ _ _ _ hres with ⟨hd, -⟩ | ⟨-, hloop, -, hput⟩
  · rw [hdl] at hd
    exact Option.noConfusion hd
  · rw [putDedupCode, if_neg httl] at hput
    simp only [Bool.false_eq_true, if_false, Except.ok.injEq] at hput
    obtain ⟨-, -, hfresh⟩ := allocLoop_some _ _ _ _ hloop
    refine ⟨hloop, hfresh, ?_⟩
    rw [← hput]
    exact Store.get_put_self _ _ _ _

/-- C8 witness: stale entry `D:http://e ↦ "ZZZZZZZ"` with no `"ZZZZZZZ"`
link; a stream of ones generates the fresh token `"BBBBBBB"`, and the
dedup key afterwards records `"BBBBBBB"`. -/
theorem claim_C8_witness :
    allocate id (fun _ _ => false) ⟨none, none, some 300⟩
      [("D:http://e", ⟨"ZZZZZZZ", some 300⟩)] "http://e" [1, 1, 1, 1, 1, 1, 1] =
      .ok "BBBBBBB" [("D:http://e", ⟨"BBBBBBB", some 300⟩),
        ("BBBBBBB", ⟨"http://e", none⟩),
        ("D:http://e", ⟨"ZZZZZZZ", some 300⟩)] ∧
    allocLoop [("D:http://e", ⟨"ZZZZZZZ", some 300⟩)] [1, 1, 1, 1, 1, 1, 1] 6
      = some "BBBBBBB" ∧
    truthyO (Store.get [("D:http://e", ⟨"ZZZZZZZ", some 300⟩)] "BBBBBBB")
      = false ∧
    Store.get [("D:http://e", ⟨"BBBBBBB", some 300⟩),
      ("BBBBBBB", ⟨"http://e", none⟩),
      ("D:http://e", ⟨"ZZZZZZZ", some 300⟩)] "D:http://e" = some "BBBBBBB" := by
  refine ⟨by decide, ?_⟩
  exact claim_C8_stale_entry_bypass id ⟨none, none, some 300⟩
    [("D:http://e", ⟨"ZZZZZZZ", some 300⟩)] "http://e" [1, 1, 1, 1, 1, 1, 1]
    "BBBBBBB" "ZZZZZZZ"
    [("D:http://e", ⟨"BBBBBBB", some 300⟩), ("BBBBBBB", ⟨"http://e", none⟩),
      ("D:http://e", ⟨"ZZZZZZZ", some 300⟩)]
    (by decide) (by decide) (by decide) (by decide)

/-! ### Claim C3 -/

/-- C3 counterexample: with deduplication enabled, the Link
`"AAAAAAA" ↦ "http://e"` is successfully written, and the subsequent
Deduplication Index record write fails — yet the request does not
complete with HTTP 200: the failure propagates as an uncaught exception
(`handle` has no try/catch), so it IS surfaced to the caller. -/
theorem claim_C3_counterexample :
    allocate id (fun k _ => k == "D:http://e") ⟨none, none, some 300⟩ []
      "http://e" [] = .thrown [("AAAAAAA", ⟨"http://e", none⟩)] ∧
    Store.get [("AAAAAAA", ⟨"http://e", none⟩)] "AAAAAAA" = some "http://e" := by
  decide

/-- C3 (amended): with deduplication enabled, when the Link write
succeeds and the Deduplication Index record write fails, the allocation
aborts with an uncaught exception (a 500-class worker error) instead of
completing with HTTP 200 — even though the Link is durably written. -/
theorem claim_C3_dedup_write_failure_surfaced (sha1Hex : String → String)
    (putFail : String → String → Bool) (env : Env) (store : Store)
    (longUrl : String) (stream : List Nat) (c : String)
    (htt : 0 < dedupTtl env)
    (hdl : dedupLiveCode sha1Hex store env longUrl = none)
    (hloop : allocLoop store stream 6 = some c)
    (hlink : putFail c longUrl = false)
    (hfail : putFail ("D:" ++ sha1Hex longUrl) c = true) :
    allocate sha1Hex putFail env store longUrl stream
      = .thrown (store.put c longUrl none) ∧
    (store.put c longUrl none).get c = some longUrl := by
  have httl : ¬(dedupTtl env ≤ 0) := by omega
  constructor
  · rw [allocate, hdl]
    simp only [hloop, hlink, Bool.false_eq_true, if_false]
    have hpd : putDedupCode sha1Hex putFail (store.put c longUrl none) env
        longUrl c = .error () := by
      rw [putDedupCode, if_neg httl]
      simp [hfail]
    rw [hpd]
  · exact Store.get_put_self _ _ _ _

/-- C3 witness: the concrete failing-dedup-put run, obtained from the
amended theorem. -/
theorem claim_C3_witness :
    0 < dedupTtl ⟨none, none, some 300⟩ ∧
    (fun (k : String) (_ : String) => k == "D:http://e") "D:http://e" "AAAAAAA"
      = true ∧
    allocate id (fun k _ => k == "D:http://e") ⟨none, none, some 300⟩ []
      "http://e" [] = .thrown (Store.put [] "AAAAAAA" "http://e" none) ∧
    Store.get (Store.put [] "AAAAAAA" "http://e" none) "AAAAAAA"
      = some "http://e" := by
  refine ⟨by decide, by decide, ?_⟩
  exact claim_C3_dedup_write_failure_surfaced id (fun k _ => k == "D:http://e")
    ⟨none, none, some 300⟩ [] "http://e" [] "AAAAAAA"
    (by decide) (by decide) (by decide) (by decide) (by decide)

/-! ### Helpers for the rate-limiter claims -/

theorem rateLimit_def (env : Env) (ip : String) (now : Nat) (cache : Cache) :
    rateLimit env ip now cache =
      if countAt cache (now / windowSecOf env, ip) ≥ maxReqOf env then
        ({ ok := false, remaining := 0,
           resetIn := (now / windowSecOf env + 1) * windowSecOf env - now },
         cache)
      else
        ({ ok := true,
           remaining := (maxReqOf env : Int)
             - ((countAt cache (now / windowSecOf env, ip) + 1 : Nat) : Int),
           resetIn := (now / windowSecOf env + 1) * windowSecOf env - now },
         cache.put (now / windowSecOf env, ip)
           (countAt cache (now / windowSecOf env, ip) + 1,
            max 1 ((now / windowSecOf env + 1) * windowSecOf env - now))) := rfl

theorem countAt_of_lookup_none (c : Cache) (k : RLKey) (h : c.lookup k = none) :
    countAt c k = 0 := by
  simp [countAt, h]

theorem countAt_put_self (c : Cache) (k : RLKey) (v : Nat × Nat) :
    countAt (c.put k v) k = v.1 := by
  simp [countAt, Cache.lookup_put_self]

theorem countAt_put_ne (c : Cache) (k k' : RLKey) (v : Nat × Nat)
    (h : k' ≠ k) : countAt (c.put k v) k' = countAt c k' := by
  simp [countAt, Cache.lookup_put_ne _ _ _ _ h]

theorem rateLimit_ok_snd (env : Env) (ip : String) (now : Nat) (cache : Cache)
    (h : (rateLimit env ip now cache).1.ok = true) :
    (rateLimit env ip now cache).2 =
      cache.put (now / windowSecOf env, ip)
        (countAt cache (now / windowSecOf env, ip) + 1,
         max 1 ((now / windowSecOf env + 1) * windowSecOf env - now)) := by
  rw [rateLimit_def] at h ⊢
  by_cases hge : countAt cache (now / windowSecOf env, ip) ≥ maxReqOf env
  · rw [if_pos hge] at h
    simp at h
  · rw [if_neg hge]

/-! ### Claim C5 -/

/-- C5: with `W=60, M=3`, the first three admits of a client in one
window return `allowed` with remaining 2, 1, 0; the fourth in the same
window is refused with remaining 0; a call in a later window is allowed
again.  Moreover on every allowed call, any window and client, the
counter is incremented by one and written back with TTL
`max 1 resetInSeconds` where
`resetInSeconds = (bucketIndex + 1) * W - now`. -/
theorem claim_C5_fixed_window_scenario (ip : String) (t1 t2 t3 t4 t5 : Nat)
    (c0 : Cache)
    (h2 : t2 / 60 = t1 / 60) (h3 : t3 / 60 = t1 / 60) (h4 : t4 / 60 = t1 / 60)
    (h5 : t5 / 60 ≠ t1 / 60)
    (hc1 : Cache.lookup c0 (t1 / 60, ip) = none)
    (hc5 : Cache.lookup c0 (t5 / 60, ip) = none) :
    (let env : Env := ⟨some 60, some 3, none⟩
     let r1 := rateLimit env ip t1 c0
     let r2 := rateLimit env ip t2 r1.2
     let r3 := rateLimit env ip t3 r2.2
     let r4 := rateLimit env ip t4 r3.2
     let r5 := rateLimit env ip t5 r4.2
     (r1.1.ok = true ∧ r1.1.remaining = 2) ∧
     (r2.1.ok = true ∧ r2.1.remaining = 1) ∧
     (r3.1.ok = true ∧ r3.1.remaining = 0) ∧
     (r4.1.ok = false ∧ r4.1.remaining = 0) ∧
     r5.1.ok = true) ∧
    (∀ (env : Env) (ip2 : String) (now : Nat) (cache : Cache),
      (rateLimit env ip2 now cache).1.ok = true →
      (rateLimit env ip2 now cache).1.resetIn
          = (now / windowSecOf env + 1) * windowSecOf env - now ∧
      (rateLimit env ip2 now cache).2
          = cache.put (now / windowSecOf env, ip2)
              (countAt cache (now / windowSecOf env, ip2) + 1,
               max 1 ((now / windowSecOf env + 1) * windowSecOf env - now))) := by
  have hW : windowSecOf ⟨some 60, some 3, none⟩ = 60 := rfl
  have hM : maxReqOf ⟨some 60, some 3, none⟩ = 3 := rfl
  constructor
  · have s1 : rateLimit ⟨some 60, some 3, none⟩ ip t1 c0 =
        ({ ok := true, remaining := 2, resetIn := (t1 / 60 + 1) * 60 - t1 },
         c0.put (t1 / 60, ip) (1, max 1 ((t1 / 60 + 1) * 60 - t1))) := by
      rw [rateLimit_def, hW, hM, countAt_of_lookup_none c0 _ hc1]
      norm_num
    have s2 : rateLimit ⟨some 60, some 3, none⟩ ip t2
        (c0.put (t1 / 60, ip) (1, max 1 ((t1 / 60 + 1) * 60 - t1))) =
        ({ ok := true, remaining := 1, resetIn := (t1 / 60 + 1) * 60 - t2 },
         (c0.put (t1 / 60, ip) (1, max 1 ((t1 / 60 + 1) * 60 - t1))).put
           (t1 / 60, ip) (2, max 1 ((t1 / 60 + 1) * 60 - t2))) := by
      rw [rateLimit_def, hW, hM, h2, countAt_put_self]
      norm_num
    have s3 : rateLimit ⟨some 60, some 3, none⟩ ip t3
        ((c0.put (t1 / 60, ip) (1, max 1 ((t1 / 60 + 1) * 60 - t1))).put
          (t1 / 60, ip) (2, max 1 ((t1 / 60 + 1) * 60 - t2))) =
        ({ ok := true, remaining := 0, resetIn := (t1 / 60 + 1) * 60 - t3 },
         ((c0.put (t1 / 60, ip) (1, max 1 ((t1 / 60 + 1) * 60 - t1))).put
           (t1 / 60, ip) (2, max 1 ((t1 / 60 + 1) * 60 - t2))).put
           (t1 / 60, ip) (3, max 1 ((t1 / 60 + 1) * 60 - t3))) := by
      rw [rateLimit_def, hW, hM, h3, countAt_put_self]
      norm_num
    have s4 : rateLimit ⟨some 60, some 3, none⟩ ip t4
        (((c0.put (t1 / 60, ip) (1, max 1 ((t1 / 60 + 1) * 60 - t1))).put
          (t1 / 60, ip) (2, max 1 ((t1 / 60 + 1) * 60 - t2))).put
          (t1 / 60, ip) (3, max 1 ((t1 / 60 + 1) * 60 - t3))) =
        ({ ok := false, remaining := 0, resetIn := (t1 / 60 + 1) * 60 - t4 },
         ((c0.put (t1 / 60, ip) (1, max 1 ((t1 / 60 + 1) * 60 - t1))).put
           (t1 / 60, ip) (2, max 1 ((t1 / 60 + 1) * 60 - t2))).put
           (t1 / 60, ip) (3, max 1 ((t1 / 60 + 1) * 60 - t3))) := by
      rw [rateLimit_def, hW, hM, h4, countAt_put_self]
      norm_num
    have hk5 : ((t5 / 60 : Nat), ip) ≠ ((t1 / 60 : Nat), ip) :=
      fun hh => h5 (congrArg Prod.fst hh)
    have s5 : (rateLimit ⟨some 60, some 3, none⟩ ip t5
        (((c0.put (t1 / 60, ip) (1, max 1 ((t1 / 60 + 1) * 60 - t1))).put
          (t1 / 60, ip) (2, max 1 ((t1 / 60 + 1) * 60 - t2))).put
          (t1 / 60, ip) (3, max 1 ((t1 / 60 + 1) * 60 - t3)))).1.ok = true := by
      rw [rateLimit_def, hW, hM, countAt_put_ne _ _ _ _ hk5,
        countAt_put_ne _ _ _ _ hk5, countAt_put_ne _ _ _ _ hk5,
        countAt_of_lookup_none c0 _ hc5]
      norm_num
    dsimp only
    rw [s1]
    dsimp only
    rw [s2]
    dsimp only
    rw [s3]
    dsimp only
    rw [s4]
    dsimp only
    exact ⟨⟨rfl, rfl⟩, ⟨rfl, rfl⟩, ⟨rfl, rfl⟩, ⟨rfl, rfl⟩, s5⟩
  · intro env ip2 now cache hok
    refine ⟨?_, rateLimit_ok_snd env ip2 now cache hok⟩
    rw [rateLimit_def]
    by_cases hge : countAt cache (now / windowSecOf env, ip2) ≥ maxReqOf env
    · rw [rateLimit_def, if_pos hge] at hok
      simp at hok
    · rw [if_neg hge]

/-- C5 witness: client `"9.9.9.9"`, calls at times 0, 10, 20, 30 (all in
bucket 0) and 60 (bucket 1), starting from the empty cache. -/
theorem claim_C5_witness :
    ((0 : Nat) / 60 ≠ (60 : Nat) / 60) ∧
    Cache.lookup [] ((0 : Nat) / 60, "9.9.9.9") = none ∧
    (let env : Env := ⟨some 60, some 3, none⟩
     let r1 := rateLimit env "9.9.9.9" 0 []
     let r2 := rateLimit env "9.9.9.9" 10 r1.2
     let r3 := rateLimit env "9.9.9.9" 20 r2.2
     let r4 := rateLimit env "9.9.9.9" 30 r3.2
     let r5 := rateLimit env "9.9.9.9" 60 r4.2
     (r1.1.ok = true ∧ r1.1.remaining = 2) ∧
     (r2.1.ok = true ∧ r2.1.remaining = 1) ∧
     (r3.1.ok = true ∧ r3.1.remaining = 0) ∧
     (r4.1.ok = false ∧ r4.1.remaining = 0) ∧
     r5.1.ok = true) := by
  refine ⟨by decide, by decide, ?_⟩
  exact (claim_C5_fixed_window_scenario "9.9.9.9" 0 10 20 30 60 []
    (by decide) (by decide) (by decide) (by decide) (by decide) (by decide)).1

/-! ### Claim C10 -/

/-- C10: on every `POST /short` request the rate limiter admits, the
client's window counter is incremented by exactly one and persisted (the
final cache equals the rate limiter's write-back) — and this holds in
particular for requests that then fail input validation, which still
answer 400 or 413: an admitted request consumes one unit of quota no
matter how validation turns out. -/
theorem claim_C10_quota_consumed_before_validation
    (sha1Hex : String → String) (putFail : String → String → Bool)
    (b64decode : String → Option String) (isHttpUrl : String → Bool)
    (env : Env) (now : Nat) (ip : String) (form : Option (Option String))
    (stream : List Nat) (store : Store) (cache : Cache)
    (hok : (rateLimit env ip now cache).1.ok = true) :
    (handlePost sha1Hex putFail b64decode isHttpUrl env now ip form stream
        store cache).cache
      = cache.put (now / windowSecOf env, ip)
          (countAt cache (now / windowSecOf env, ip) + 1,
           max 1 ((now / windowSecOf env + 1) * windowSecOf env - now)) ∧
    (validationFails b64decode isHttpUrl form = true →
      ∃ st, (handlePost sha1Hex putFail b64decode isHttpUrl env now ip form
          stream store cache).outcome = .ok ⟨st, none, none⟩ ∧
        (st = 400 ∨ st = 413)) := by
  constructor
  · have h1 : (handlePost sha1Hex putFail b64decode isHttpUrl env now ip form
        stream store cache).cache = (rateLimit env ip now cache).2 := rfl
    rw [h1]
    exact rateLimit_ok_snd env ip now cache hok
  · intro hv
    cases form with
    | none => exact ⟨400, by simp [handlePost, hok], Or.inl rfl⟩
    | some f =>
      cases f with
      | none => exact ⟨400, by simp [handlePost, hok], Or.inl rfl⟩
      | some b64 =>
        cases ht : (jsTrim b64).isEmpty with
        | true => exact ⟨400, by simp [handlePost, hok, ht], Or.inl rfl⟩
        | false =>
          by_cases hlen : b64.length > 8192
          · exact ⟨413, by simp [handlePost, hok, ht, hlen], Or.inr rfl⟩
          · cases hd : b64decode b64 with
            | none =>
              exact ⟨400, by simp [handlePost, hok, ht, hlen, hd], Or.inl rfl⟩
            | some u =>
              by_cases hul : u.length > 8192
              · exact ⟨413, by simp [handlePost, hok, ht, hlen, hd, hul],
                  Or.inr rfl⟩
              · have hhttp : isHttpUrl u = false := by
                  simp [validationFails, ht, hlen, hd, hul] at hv
                  exact hv
                exact ⟨400,
                  by simp [handlePost, hok, ht, hlen, hd, hul, hhttp],
                  Or.inl rfl⟩

/-- C10 witness: an admitted request (empty cache, so count 0 < 3) whose
body fails base64 decoding: the response is 400 and the quota entry
`(bucket 0, ip) ↦ (1, 60)` is persisted. -/
theorem claim_C10_witness :
    (rateLimit ⟨some 60, some 3, none⟩ "9.9.9.9" 0 []).1.ok = true ∧
    validationFails (fun _ => none) (fun _ => true) (some (some "Zm9v")) = true ∧
    ((handlePost id (fun _ _ => false) (fun _ => none) (fun _ => true)
        ⟨some 60, some 3, none⟩ 0 "9.9.9.9" (some (some "Zm9v")) [] [] []).cache
      = Cache.put [] (0 / windowSecOf ⟨some 60, some 3, none⟩, "9.9.9.9")
          (countAt [] (0 / windowSecOf ⟨some 60, some 3, none⟩, "9.9.9.9") + 1,
           max 1 ((0 / windowSecOf ⟨some 60, some 3, none⟩ + 1)
             * windowSecOf ⟨some 60, some 3, none⟩ - 0)) ∧
    (validationFails (fun _ => none) (fun _ => true) (some (some "Zm9v")) = true →
      ∃ st, (handlePost id (fun _ _ => false) (fun _ => none) (fun _ => true)
          ⟨some 60, some 3, none⟩ 0 "9.9.9.9" (some (some "Zm9v")) [] [] []).outcome
        = .ok ⟨st, none, none⟩ ∧ (st = 400 ∨ st = 413))) := by
  refine ⟨by decide, by decide, ?_⟩
  exact claim_C10_quota_consumed_before_validation id (fun _ _ => false)
    (fun _ => none) (fun _ => true) ⟨some 60, some 3, none⟩ 0 "9.9.9.9"
    (some (some "Zm9v")) [] [] [] (by decide)

end CfShortlink
